import Mathlib

/-!
Verification of the skim fuzzy-finder pipeline engine: a shallow embedding of
the event-loop model (`src/model.rs`), the reader (`src/reader.rs`) and the
filter entry point (`src/lib.rs`), with theorems about the heartbeat tick,
clear strategies, run numbers, line stripping and exit codes.

Components whose defining module is not part of the provided sources
(`ItemPool`, `Selection`, `MatcherControl` internals) are modelled from the
specification and marked as such in their doc comments.
-/

namespace Skim

/-- A candidate item: its text and its id `(run_number, index)`
(`src/item.rs` interface, as used by `model.rs` and `reader.rs`). -/
structure Item where
  text : String
  id : Nat × Nat
deriving DecidableEq, Repr

/-- An item paired with its rank, as produced by the matcher. -/
structure MatchedItem where
  item : Item
  rank : Nat
deriving DecidableEq, Repr

/-- Modelled from the spec: ItemPool is "an ordered sequence of items plus a
`taken` cursor (count of items the matcher has already consumed)"
(the defining module `item.rs` is not among the provided sources). -/
structure ItemPool where
  items : List Item
  taken : Nat
deriving DecidableEq, Repr

/-- Modelled from the spec: `append(batch)` — atomic append of a batch. -/
def ItemPool.append (p : ItemPool) (batch : List Item) : ItemPool :=
  { p with items := p.items ++ batch }

/-- Modelled from the spec: `num_not_taken()` — items appended since last take. -/
def ItemPool.num_not_taken (p : ItemPool) : Nat :=
  p.items.length - p.taken

/-- Modelled from the spec: `reset()` rewinds the cursor to zero. -/
def ItemPool.reset (p : ItemPool) : ItemPool :=
  { p with taken := 0 }

/-- Modelled from the spec: `clear()` drops all items and resets the cursor. -/
def ItemPool.clear (_p : ItemPool) : ItemPool :=
  { items := [], taken := 0 }

/-- Modelled from the spec: `len()` — total item count. -/
def ItemPool.len (p : ItemPool) : Nat :=
  p.items.length

/-- Modelled from the spec: the Selection is the rank-ordered visible result
list (`selection.rs` is not among the provided sources). -/
abbrev Selection := List MatchedItem

/-- Modelled from the spec: `clear()` — drop everything. -/
def Selection.clear (_s : Selection) : Selection := []

/-- Modelled from the spec: `append_sorted_items(new_sorted)` — order-preserving
merge of already-sorted new matches into the existing sorted list. -/
def Selection.append_sorted_items (s : Selection) (new : List MatchedItem) : Selection :=
  match s, new with
  | s, [] => s
  | [], new => new
  | a :: s, b :: new =>
    if a.rank ≤ b.rank then a :: Selection.append_sorted_items s (b :: new)
    else b :: Selection.append_sorted_items (a :: s) new
termination_by s.length + new.length

/-- Modelled from the spec: `act_select_item(item)` — directly insert a
user-synthesized item into the selection. -/
def Selection.act_select_item (s : Selection) (item : Item) : Selection :=
  s ++ [{ item := item, rank := 0 }]

/-- The reader handle (`src/reader.rs`, `ReaderControl`): the worker's stopped
flag and the shared output buffer; `cmd` records the command the spawned
worker thread is draining. -/
structure ReaderControl where
  stopped : Bool
  items : List Item
  cmd : String
deriving DecidableEq, Repr

/-- Embeds `ReaderControl::is_done` (`src/reader.rs` lines 42-45):
`self.stopped.load(..) && items.is_empty()`. -/
def ReaderControl.is_done (rc : ReaderControl) : Bool :=
  rc.stopped && rc.items.isEmpty

/-- Embeds `ReaderControl::take` (`src/reader.rs` lines 35-40): drain the shared
buffer, returning its contents. -/
def ReaderControl.take (rc : ReaderControl) : List Item × ReaderControl :=
  (rc.items, { rc with items := [] })

/-- Embeds `Reader::run(cmd)` (`src/reader.rs` lines 69-92): a fresh handle with
`stopped = false` and an empty output buffer; the worker thread holds `cmd`. -/
def Reader.run (cmd : String) : ReaderControl :=
  { stopped := false, items := [], cmd := cmd }

/-- The matcher handle (interface of `matcher.rs`, used by `model.rs`):
stopped flag, accumulated matches, and the query the worker was spawned on. -/
structure MatcherControl where
  stopped : Bool
  matched : List MatchedItem
  query : String
deriving DecidableEq, Repr

/-- Embeds `Matcher::run` as invoked by `Model::restart_matcher`: a fresh worker on
the given query, not yet stopped, with an empty result buffer. -/
def Matcher.run (query : String) : MatcherControl :=
  { stopped := false, matched := [], query := query }

/-- Embeds `ClearStrategy` (`src/model.rs` lines 832-837). -/
inductive ClearStrategy where
  | DontClear
  | Clear
  | ClearIfNotNull
deriving DecidableEq, Repr

/-- Ghost trace of the side effects the model performs (thread kills, spawns,
heartbeat sends and timer schedules), recorded in program order. -/
inductive Effect where
  | killReader
  | killMatcher
  | startReader (cmd : String)
  | startMatcher (query : String)
  | sendHeartBeat
  | scheduleHeartBeat
deriving DecidableEq, Repr

/-- The event-loop state (`src/model.rs`, `Model` plus its `ModelEnv`):
`query` and `cmd` are `env.query` and `env.cmd`, `clear_selection` is
`env.clear_selection`; `trace` is a ghost effect log. -/
structure Model where
  query : String
  cmd : String
  clear_selection : ClearStrategy
  selection : Selection
  num_options : Nat
  item_pool : ItemPool
  reader_control : Option ReaderControl
  matcher_control : Option MatcherControl
  next_idx_to_append : Nat
  trace : List Effect
deriving DecidableEq, Repr

/-- Embeds `self.reader_control.as_ref().map(|c| c.is_done()).unwrap_or(true)`
(`src/model.rs` lines 236, 260, 587). -/
def Model.reader_done (m : Model) : Bool :=
  match m.reader_control with
  | some rc => rc.is_done
  | none => true

/-- Embeds `Model::restart_matcher` (`src/model.rs` lines 574-611): kill any existing
matcher, move the reader's new items into the pool when the reader is not
done, send a heartbeat, and spawn a fresh matcher on the current query. -/
def Model.restart_matcher (m : Model) : Model :=
  let m1 :=
    match m.matcher_control with
    | some _ => { m with matcher_control := none, trace := m.trace ++ [Effect.killMatcher] }
    | none => m
  let processed := m1.reader_done
  let m2 :=
    if processed then m1
    else
      match m1.reader_control with
      | some rc =>
        { m1 with
          reader_control := some (rc.take).2,
          item_pool := m1.item_pool.append (rc.take).1 }
      | none => m1
  let m3 := { m2 with trace := m2.trace ++ [Effect.sendHeartBeat] }
  { m3 with
    matcher_control := some (Matcher.run m3.query),
    trace := m3.trace ++ [Effect.startMatcher m3.query] }

/-- The clear decision of `Model::act_heart_beat` (`src/model.rs` lines
242-254): whether the pending clear strategy clears the selection at a tick
that drains the stopped matcher `ctrl`. -/
def hbCleared (m : Model) (ctrl : MatcherControl) : Bool :=
  match m.clear_selection with
  | ClearStrategy.DontClear => false
  | ClearStrategy.Clear => true
  | ClearStrategy.ClearIfNotNull => m.reader_done || !ctrl.matched.isEmpty

/-- First half of `Model::act_heart_beat` (`src/model.rs` lines 229-257): if
the matcher has stopped, take the handle, drain its matches, apply the
pending clear strategy to the selection, and append the drained matches. -/
def Model.hb_drain (m : Model) : Model :=
  match m.matcher_control with
  | some ctrl =>
    if ctrl.stopped then
      let cleared := hbCleared m ctrl
      { m with
        matcher_control := none,
        clear_selection := if cleared then ClearStrategy.DontClear else m.clear_selection,
        num_options := m.num_options + ctrl.matched.length,
        selection := Selection.append_sorted_items
          (if cleared then m.selection.clear else m.selection) ctrl.matched }
    else m
  | none => m

/-- Second half of `Model::act_heart_beat` (`src/model.rs` lines 259-279):
restart the matcher when work remains and none is running, and schedule the
next heartbeat while a matcher runs or work is pending. -/
def Model.hb_tick (m1 : Model) : Model :=
  let items_consumed := m1.item_pool.num_not_taken == 0
  let reader_stopped := m1.reader_done
  let processed := reader_stopped && items_consumed
  let m2 :=
    if !processed && m1.matcher_control.isNone then m1.restart_matcher else m1
  if m2.matcher_control.isSome || !processed then
    { m2 with trace := m2.trace ++ [Effect.scheduleHeartBeat] }
  else m2

/-- Embeds `Model::act_heart_beat` (`src/model.rs` lines 227-280): the drain phase
followed by the restart/schedule phase. -/
def Model.act_heart_beat (m : Model) : Model := m.hb_drain.hb_tick

/-- Embeds `Model::on_cmd_query_change` (`src/model.rs` lines 300-317): kill reader
and matcher, set `ClearIfNotNull`, clear the pool, zero `num_options`, start a
new reader on `env.cmd`, restart the matcher. -/
def Model.on_cmd_query_change (m : Model) : Model :=
  let m1 :=
    match m.reader_control with
    | some _ => { m with reader_control := none, trace := m.trace ++ [Effect.killReader] }
    | none => m
  let m2 :=
    match m1.matcher_control with
    | some _ => { m1 with matcher_control := none, trace := m1.trace ++ [Effect.killMatcher] }
    | none => m1
  let m3 :=
    { m2 with
      clear_selection := ClearStrategy.ClearIfNotNull,
      item_pool := m2.item_pool.clear,
      num_options := 0 }
  let m4 :=
    { m3 with
      reader_control := some (Reader.run m3.cmd),
      trace := m3.trace ++ [Effect.startReader m3.cmd] }
  m4.restart_matcher

/-- The value `usize::MAX` on a 64-bit target, used as the run-number half of the id of
items synthesized by `act_append_and_select`. -/
def USIZE_MAX : Nat := 2 ^ 64 - 1

/-- Embeds `Model::act_append_and_select` (`src/model.rs` lines 355-376): return
early when the query is empty; otherwise synthesize an item from the query
text with id `(usize::MAX, next_idx_to_append)`, bump the counter, append it
to the pool, select it, and run a heartbeat. -/
def Model.act_append_and_select (m : Model) : Model :=
  if m.query = "" then m
  else
    let item : Item := { text := m.query, id := (USIZE_MAX, m.next_idx_to_append) }
    let m1 :=
      { m with
        next_idx_to_append := m.next_idx_to_append + 1,
        item_pool := m.item_pool.append [item],
        selection := m.selection.act_select_item item }
    m1.act_heart_beat

/-! Run numbers (`src/reader.rs` lines 186-240): the process-wide `RUN_NUM`
counter and the `NUM_MAP` cache keyed by command string. -/

/-- The process-wide run-number state: the `RUN_NUM` counter and the
`NUM_MAP` association of command strings to cached run numbers. -/
structure RunState where
  runNum : Nat
  numMap : List (String × Nat)
deriving DecidableEq, Repr

/-- Lookup in `NUM_MAP`. -/
def RunState.lookup (s : RunState) (cmd : String) : Option Nat :=
  (s.numMap.find? (fun p => p.1 = cmd)).map Prod.snd

/-- The run-number assignment of `reader` (`src/reader.rs` lines 231-240):
read `RUN_NUM`, then `NUM_MAP.entry(cmd).or_insert_with(|| RUN_NUM = n + 1;
n + 1)` — return the cached number for `cmd`, or cache and return a fresh
incremented one. -/
def assign_run_num (cmd : String) (s : RunState) : Nat × RunState :=
  let run_num := s.runNum
  match s.lookup cmd with
  | some n => (n, s)
  | none =>
    (run_num + 1,
     { runNum := run_num + 1, numMap := s.numMap ++ [(cmd, run_num + 1)] })

/-- A sequence of reader runs in one process: the run-number state after the
workers for `cmds`, in order, have each executed the assignment of
`src/reader.rs` lines 231-240. -/
def assign_run_nums (cmds : List String) (s : RunState) : RunState :=
  cmds.foldl (fun st c => (assign_run_num c st).2) s

/-! The reader worker's line loop (`src/reader.rs` lines 242-292):
`read_until(line_ending)`, strip the terminator, build an item. Bytes are
modelled as `Nat` (13 = CR, 10 = LF, 0 = NUL). -/

/-- The buffer filled by one `source.read_until(ending, buffer)` call: the
bytes up to and including the first occurrence of `ending` (or everything,
at end of input). -/
def takeLine (ending : Nat) : List Nat → List Nat
  | [] => []
  | b :: rest => if b = ending then [b] else b :: takeLine ending rest

/-- The bytes remaining in the source after one `read_until(ending)` call. -/
def restLine (ending : Nat) : List Nat → List Nat
  | [] => []
  | b :: rest => if b = ending then rest else restLine ending rest

/-- The terminator stripping of the reader loop (`src/reader.rs` lines
258-263): pop two bytes when the buffer ends with `\r\n`, one byte when it
ends with `\n` or `\0`. -/
def stripLine (buffer : List Nat) : List Nat :=
  if [13, 10].isSuffixOf buffer then buffer.dropLast.dropLast
  else if [10].isSuffixOf buffer || [0].isSuffixOf buffer then buffer.dropLast
  else buffer

theorem restLine_length_le (ending : Nat) (l : List Nat) :
    (restLine ending l).length ≤ l.length := by
  induction l with
  | nil => simp [restLine]
  | cons b rest ih =>
    simp only [restLine]
    split
    · simp
    · exact Nat.le_succ_of_le ih

/-- The reader loop (`src/reader.rs` lines 244-290): repeatedly
`read_until` the configured terminator, strip it, and emit the line text,
until a zero-byte read (end of input). -/
def readerLines (ending : Nat) (source : List Nat) : List (List Nat) :=
  match source with
  | [] => []
  | b :: rest =>
    stripLine (takeLine ending (b :: rest)) ::
      readerLines ending (restLine ending (b :: rest))
termination_by source.length
decreasing_by
  simp only [restLine]
  split
  · simp
  · exact Nat.lt_succ_of_le (restLine_length_le ending rest)

/-- The outcome of one run of the reader worker (`src/reader.rs` `reader`,
lines 192-298): the line texts pushed to the shared buffer, the final value
of the shared `stopped` flag, and the panic message when the worker panicked. -/
structure WorkerOutcome where
  lines : List (List Nat)
  stopped : Bool
  panicked : Option String
deriving DecidableEq, Repr

/-- The reader worker (`src/reader.rs` lines 192-298): use the provided
source if any, otherwise the spawned command's stdout
(`get_command_output(cmd).expect("command not found")`, lines 201-204 —
a failed spawn panics the worker before anything is read, leaving the shared
`stopped` flag unset); on success, read and strip all lines and finally set
`stopped = true`. `spawn` is the stdout of `shell -c cmd`, or `none` when
spawning fails. -/
def readerWorker (ending : Nat) (source_file : Option (List Nat))
    (spawn : Option (List Nat)) : WorkerOutcome :=
  match source_file with
  | some f => { lines := readerLines ending f, stopped := true, panicked := none }
  | none =>
    match spawn with
    | some out => { lines := readerLines ending out, stopped := true, panicked := none }
    | none => { lines := [], stopped := false, panicked := some "command not found" }

/-! The event loop's channel handling (`src/model.rs` lines 398-416 and
554-571). -/

/-- The event kinds handled directly by the loop (`src/event.rs` interface,
as consumed by `model.rs`). -/
inductive Event where
  | EvHeartBeat
  | EvActAccept
  | EvActAbort
  | EvActAppendAndSelect
  | EvActRotateMode
  | EvInputKey
deriving DecidableEq, Repr

/-- Event payloads: the action-carrying events hold an `Option String`. -/
abbrev EventArg := Option String

/-- Embeds `Model::consume_additional_event` (`src/model.rs` lines 554-571): peek
and consume the queued events while they equal `target`; the first differing
event is consumed by the trailing `next()` and returned to be processed as
the next event. Returns that event (if any) and the remaining queue. -/
def consume_additional_event (target : Event) :
    List (Event × EventArg) → Option (Event × EventArg) × List (Event × EventArg)
  | [] => (none, [])
  | (ev, a) :: rest =>
    if ev = target then consume_additional_event target rest
    else (some (ev, a), rest)

/-- The `EvHeartBeat` arm of the event loop (`src/model.rs` lines 411-416):
coalesce queued heartbeats, then run `act_heart_beat` once; the event saved
by the coalescing is processed as the next event. -/
def handle_heart_beat (m : Model) (queue : List (Event × EventArg)) :
    Model × Option (Event × EventArg) × List (Event × EventArg) :=
  let r := consume_additional_event Event.EvHeartBeat queue
  (m.act_heart_beat, r.1, r.2)

/-! Filter mode (`src/lib.rs`, `Skim::filter`, lines 113-180). -/

/-- The match-counting loop of `Skim::filter` (`src/lib.rs` lines 165-173):
for every item the reader produced, count it when
`engine.match_item(item)` is `Some`. -/
def filterMatchCount (engine : Item → Option MatchedItem) (items : List Item) : Nat :=
  items.foldl (fun acc item => match engine item with | some _ => acc + 1 | none => acc) 0

/-- The return value of `Skim::filter` (`src/lib.rs` lines 175-179):
`1` when `match_count == 0`, else `0`. -/
def filterExitCode (engine : Item → Option MatchedItem) (items : List Item) : Int :=
  if filterMatchCount engine items = 0 then 1 else 0

/-! Theorems. -/

/-- A concrete model state used to instantiate hypotheses of the theorems
below on closed inputs. -/
def testModel : Model :=
  { query := ""
    cmd := "find ."
    clear_selection := ClearStrategy.DontClear
    selection := []
    num_options := 0
    item_pool := { items := [], taken := 0 }
    reader_control := some { stopped := false, items := [], cmd := "find ." }
    matcher_control := some { stopped := false, matched := [], query := "" }
    next_idx_to_append := 0
    trace := [] }

/-- C4: `is_done` reports true exactly when the stopped flag is set and the
shared output buffer is empty; the worker sets the stopped flag once the
source reaches EOF. -/
theorem reader_is_done_iff :
    (∀ rc : ReaderControl, rc.is_done = true ↔ (rc.stopped = true ∧ rc.items = [])) ∧
    (∀ (e : Nat) (src : List Nat), (readerWorker e (some src) none).stopped = true) := by
  constructor
  · intro rc
    simp [ReaderControl.is_done, List.isEmpty_iff]
  · intro e src
    simp [readerWorker]

theorem lookup_insert (s : RunState) (cmd : String) (h : s.lookup cmd = none) (n : Nat) :
    RunState.lookup { runNum := n, numMap := s.numMap ++ [(cmd, n)] } cmd = some n := by
  unfold RunState.lookup at h ⊢
  cases hf : List.find? (fun p => p.1 = cmd) s.numMap with
  | some p => rw [hf] at h; simp at h
  | none =>
    rw [List.find?_append, hf]
    simp [List.find?]

theorem lookup_assign_persist (c : String) (s : RunState) (cmd : String) (n : Nat)
    (h : s.lookup cmd = some n) :
    ((assign_run_num c s).2).lookup cmd = some n := by
  unfold assign_run_num
  cases hc : s.lookup c with
  | some k => simpa using h
  | none =>
    simp only
    unfold RunState.lookup at h ⊢
    cases hf : List.find? (fun p => p.1 = cmd) s.numMap with
    | none => rw [hf] at h; cases h
    | some p =>
      rw [hf] at h
      rw [List.find?_append, hf]
      simpa using h

theorem lookup_assigns_persist (cmds : List String) (s : RunState)
    (cmd : String) (n : Nat) (h : s.lookup cmd = some n) :
    (assign_run_nums cmds s).lookup cmd = some n := by
  induction cmds generalizing s with
  | nil => simpa [assign_run_nums] using h
  | cons c rest ih =>
    simp only [assign_run_nums, List.foldl_cons]
    exact ih (assign_run_num c s).2 (lookup_assign_persist c s cmd n h)

theorem assign_of_cached (s : RunState) (cmd : String) (n : Nat)
    (h : s.lookup cmd = some n) : (assign_run_num cmd s).1 = n := by
  simp [assign_run_num, h]

theorem lookup_after_assign (t : RunState) (cmd : String) :
    ((assign_run_num cmd t).2).lookup cmd = some ((assign_run_num cmd t).1) := by
  cases ht : t.lookup cmd with
  | some n => simp [assign_run_num, ht]
  | none =>
    have hins := lookup_insert t cmd ht (t.runNum + 1)
    simp [assign_run_num, ht, hins]

/-- C3: for every sequence of reader runs, once a command string is assigned
a run number, re-running that command after any interleaved sequence of
other commands' assignments returns the very same run number; a command
string not yet cached is assigned the incremented process-wide counter,
which is cached for it. -/
theorem run_number_stability (t s : RunState) (cmd : String) (cmds : List String)
    (h : s.lookup cmd = none) :
    (assign_run_num cmd (assign_run_nums cmds (assign_run_num cmd t).2)).1
      = (assign_run_num cmd t).1 ∧
    (assign_run_num cmd s).1 = s.runNum + 1 ∧
    (assign_run_num cmd s).2.runNum = s.runNum + 1 ∧
    (assign_run_num cmd s).2.lookup cmd = some (s.runNum + 1) := by
  refine ⟨?_, ?_, ?_, ?_⟩
  · have hcache :
        (assign_run_nums cmds (assign_run_num cmd t).2).lookup cmd
          = some ((assign_run_num cmd t).1) :=
      lookup_assigns_persist cmds (assign_run_num cmd t).2 cmd
        ((assign_run_num cmd t).1) (lookup_after_assign t cmd)
    exact assign_of_cached _ cmd _ hcache
  · simp [assign_run_num, h]
  · simp [assign_run_num, h]
  · have hins := lookup_insert s cmd h (s.runNum + 1)
    simp [assign_run_num, h, hins]

/-- C3 witness: concrete evaluation from the empty run-number state, with two
other commands assigned between the two runs of `"ls"`. -/
theorem run_number_stability_witness :
    RunState.lookup { runNum := 0, numMap := [] } "ls" = none ∧
    ((assign_run_num "ls"
        (assign_run_nums ["grep foo", "find ."]
          (assign_run_num "ls" { runNum := 0, numMap := [] }).2)).1
       = (assign_run_num "ls" { runNum := 0, numMap := [] }).1 ∧
     (assign_run_num "ls" { runNum := 0, numMap := [] }).1 = 0 + 1 ∧
     (assign_run_num "ls" { runNum := 0, numMap := [] }).2.runNum = 0 + 1 ∧
     (assign_run_num "ls" { runNum := 0, numMap := [] }).2.lookup "ls" = some (0 + 1)) :=
  ⟨rfl,
   run_number_stability { runNum := 0, numMap := [] } { runNum := 0, numMap := [] }
     "ls" ["grep foo", "find ."] rfl⟩

theorem filterMatchCount_go (engine : Item → Option MatchedItem)
    (items : List Item) (acc : Nat) :
    items.foldl (fun acc item => match engine item with | some _ => acc + 1 | none => acc) acc
      = acc + (items.filter (fun i => (engine i).isSome)).length := by
  induction items generalizing acc with
  | nil => simp
  | cons i rest ih =>
    cases h : engine i with
    | some v =>
      have hp : (engine i).isSome = true := by rw [h]; rfl
      simp [List.foldl_cons, h, List.filter_cons, hp, ih]
      ring
    | none =>
      have hp : (engine i).isSome = false := by rw [h]; rfl
      simp [List.foldl_cons, h, List.filter_cons, hp, ih]

/-- C5: filter mode exits with code 0 exactly when some produced item matches
the engine, and with code 1 exactly when no item matches. -/
theorem filter_exit_code (engine : Item → Option MatchedItem) (items : List Item) :
    (filterExitCode engine items = 0 ↔ ∃ it ∈ items, (engine it).isSome = true) ∧
    (filterExitCode engine items = 1 ↔ ∀ it ∈ items, engine it = none) := by
  have hcount : filterMatchCount engine items
      = (items.filter (fun i => (engine i).isSome)).length := by
    simpa using filterMatchCount_go engine items 0
  unfold filterExitCode
  rw [hcount]
  by_cases hnil : items.filter (fun i => (engine i).isSome) = []
  · rw [List.filter_eq_nil_iff] at hnil
    constructor
    · constructor
      · intro hzero
        rw [List.filter_eq_nil_iff.2 (by simpa using hnil)] at hzero
        simp at hzero
      · rintro ⟨it, hmem, hsome⟩
        exact absurd hsome (by simpa using hnil it hmem)
    · constructor
      · intro _
        intro it hmem
        exact Option.not_isSome_iff_eq_none.1 (by simpa using hnil it hmem)
      · intro _
        rw [List.filter_eq_nil_iff.2 (by simpa using hnil)]
        simp
  · have hlen : (items.filter (fun i => (engine i).isSome)).length ≠ 0 := by
      simpa [List.length_eq_zero] using hnil
    constructor
    · constructor
      · intro _
        obtain ⟨it, hmem⟩ := List.exists_mem_of_ne_nil _ hnil
        have hmem' := List.mem_filter.1 hmem
        exact ⟨it, hmem'.1, hmem'.2⟩
      · intro _
        simp [hlen]
    · constructor
      · intro hone
        simp [hlen] at hone
      · intro hall
        exfalso
        apply hnil
        exact List.filter_eq_nil_iff.2 (fun it hmem => by simp [hall it hmem])

theorem consume_heart_beats (hbs : List (Event × EventArg)) (e : Event)
    (a : EventArg) (rest : List (Event × EventArg))
    (hhb : ∀ x ∈ hbs, x.1 = Event.EvHeartBeat) (hne : e ≠ Event.EvHeartBeat) :
    consume_additional_event Event.EvHeartBeat (hbs ++ (e, a) :: rest)
      = (some (e, a), rest) := by
  induction hbs with
  | nil => simp [consume_additional_event, hne]
  | cons x xs ih =>
    obtain ⟨ev, arg⟩ := x
    have hx : ev = Event.EvHeartBeat := hhb (ev, arg) (by simp)
    simpa [consume_additional_event, hx]
      using ih (fun y hy => hhb y (by simp [hy]))

/-- C7: on a heartbeat, the loop consumes the maximal run of immediately
queued heartbeat events, runs `act_heart_beat` exactly once, and the first
non-heartbeat event encountered becomes the next event to process. -/
theorem heart_beat_coalescing (m : Model) (hbs : List (Event × EventArg))
    (e : Event) (a : EventArg) (rest : List (Event × EventArg))
    (hhb : ∀ x ∈ hbs, x.1 = Event.EvHeartBeat) (hne : e ≠ Event.EvHeartBeat) :
    handle_heart_beat m (hbs ++ (e, a) :: rest)
      = (m.act_heart_beat, some (e, a), rest) := by
  unfold handle_heart_beat
  rw [consume_heart_beats hbs e a rest hhb hne]

/-- C7 witness: two queued heartbeats are coalesced; the abort event behind
them is preserved as the next event. -/
theorem heart_beat_coalescing_witness :
    handle_heart_beat testModel
        ([(Event.EvHeartBeat, none), (Event.EvHeartBeat, none)]
          ++ (Event.EvActAbort, (none : EventArg)) :: [(Event.EvInputKey, some "x")])
      = (testModel.act_heart_beat, some (Event.EvActAbort, none),
         [(Event.EvInputKey, some "x")]) :=
  heart_beat_coalescing testModel
    [(Event.EvHeartBeat, none), (Event.EvHeartBeat, none)]
    Event.EvActAbort none [(Event.EvInputKey, some "x")]
    (by decide) (by decide)

/-- C10: with an empty query, `act_append_and_select` returns early and the
whole model state — pool, selection, `next_idx_to_append`, handles and effect
trace (so in particular no heartbeat) — is unchanged. -/
theorem append_and_select_empty_query (m : Model) (h : m.query = "") :
    m.act_append_and_select = m := by
  unfold Model.act_append_and_select
  rw [if_pos h]

/-- C10 witness: concrete model with an empty query. -/
theorem append_and_select_empty_query_witness :
    testModel.query = "" ∧ testModel.act_append_and_select = testModel :=
  ⟨rfl, append_and_select_empty_query testModel rfl⟩

/-- C6 counterexample: when the source command fails to spawn (`spawn = none`)
the reader worker panics ("command not found", `src/reader.rs` line 204)
before reading anything: the shared `stopped` flag stays false, so the reader
handle never reports done — contrary to the claim that the reader is treated
as done with the items collected so far. -/
theorem source_error_counterexample :
    (readerWorker 10 none none).panicked = some "command not found" ∧
    (readerWorker 10 none none).stopped = false ∧
    ReaderControl.is_done
      { stopped := (readerWorker 10 none none).stopped,
        items := [], cmd := "nonexistent-command" } = false :=
  ⟨rfl, rfl, rfl⟩

/-- C6 amended: a failed spawn panics the reader worker before any item is
read — no lines are produced and the stopped flag is never set, so `is_done`
never becomes true (the panic is confined to the worker thread, so the
program itself keeps running); with a piped source or a successful spawn the
worker completes normally with `stopped = true` and no panic. -/
theorem source_error_amended (e : Nat) :
    readerWorker e none none
      = { lines := [], stopped := false, panicked := some "command not found" } ∧
    (∀ out, (readerWorker e none (some out)).stopped = true ∧
            (readerWorker e none (some out)).panicked = none) ∧
    (∀ f spawn, (readerWorker e (some f) spawn).stopped = true ∧
                (readerWorker e (some f) spawn).panicked = none) :=
  ⟨rfl, fun _ => ⟨rfl, rfl⟩, fun _ _ => ⟨rfl, rfl⟩⟩

theorem takeLine_cases (e : Nat) (l : List Nat) :
    (∃ init, takeLine e l = init ++ [e] ∧ e ∉ init) ∨
    (takeLine e l = l ∧ e ∉ l) := by
  induction l with
  | nil => right; simp [takeLine]
  | cons b rest ih =>
    by_cases hb : b = e
    · left
      exact ⟨[], by simp [takeLine, hb], by simp⟩
    · rcases ih with ⟨init, heq, hmem⟩ | ⟨heq, hmem⟩
      · left
        refine ⟨b :: init, by simp [takeLine, hb, heq], ?_⟩
        simp only [List.mem_cons, not_or]
        exact ⟨fun h => hb h.symm, hmem⟩
      · right
        refine ⟨by simp [takeLine, hb, heq], ?_⟩
        simp only [List.mem_cons, not_or]
        exact ⟨fun h => hb h.symm, hmem⟩

theorem stripLine_sublist (l : List Nat) : (stripLine l).Sublist l := by
  unfold stripLine
  split_ifs with h1 h2
  · exact (List.dropLast_sublist _).trans (List.dropLast_sublist l)
  · exact List.dropLast_sublist l
  · exact List.Sublist.refl l

theorem stripLine_concat_not_mem (e : Nat) (init : List Nat)
    (hmem : e ∉ init) (he : e = 10 ∨ e = 0) :
    e ∉ stripLine (init ++ [e]) := by
  unfold stripLine
  split_ifs with h1 h2
  · rw [List.dropLast_concat]
    intro hc
    exact hmem ((List.dropLast_sublist init).mem hc)
  · rw [List.dropLast_concat]
    exact hmem
  · exfalso
    apply h2
    have hsuf : [e].isSuffixOf (init ++ [e]) = true :=
      List.isSuffixOf_iff_suffix.2 (List.suffix_append init [e])
    rcases he with he | he <;> subst he <;> simp [hsuf]

theorem readerLines_not_mem (e : Nat) (he : e = 10 ∨ e = 0) (source : List Nat) :
    ∀ t ∈ readerLines e source, e ∉ t := by
  have key : ∀ n (src : List Nat), src.length ≤ n → ∀ t ∈ readerLines e src, e ∉ t := by
    intro n
    induction n with
    | zero =>
      intro src hlen t ht
      have hsrc : src = [] := List.length_eq_zero.1 (Nat.le_zero.1 hlen)
      subst hsrc
      simp [readerLines] at ht
    | succ n ih =>
      intro src hlen t ht
      cases src with
      | nil => simp [readerLines] at ht
      | cons b rest =>
        rw [readerLines] at ht
        rcases List.mem_cons.1 ht with hhead | htail
        · subst hhead
          rcases takeLine_cases e (b :: rest) with ⟨init, heq, hninit⟩ | ⟨heq, hnmem⟩
          · rw [heq]
            exact stripLine_concat_not_mem e init hninit he
          · rw [heq]
            intro hc
            exact hnmem ((stripLine_sublist (b :: rest)).mem hc)
        · refine ih (restLine e (b :: rest)) ?_ t htail
          simp only [restLine]
          split
          · exact Nat.le_of_succ_le_succ hlen
          · exact le_trans (restLine_length_le e rest) (Nat.le_of_succ_le_succ hlen)
  exact key source.length source (le_refl _)

/-- C8 counterexample: with `read0` set (terminator `\0`), the reader stores
the line `"a\r\n\0"` as `"a\r\n"` — the stored item text ends with `\r\n`,
and the `\r` preceding the `\0` terminator is not stripped, contradicting the
claim as stated. -/
theorem strip_terminator_counterexample :
    readerLines 0 [97, 13, 10, 0] = [[97, 13, 10]] ∧
    [13, 10].isSuffixOf [97, 13, 10] = true ∧
    readerLines 0 [97, 13, 0] = [[97, 13]] := by
    refine ⟨?_, by decide, ?_⟩ <;> (simp [readerLines, takeLine, restLine]; decide)

/-- C8 amended: for the configured terminator (`\n` by default, `\0` under
`read0`), every stored line text contains no occurrence of that terminator at
all — in particular it never ends with it — and in the default `\n` mode no
stored text ends with `\r\n` (the pair is stripped together). Under `read0` a
preceding `\r` is only stripped together with a `\n`, so a stored text may
still end with `\r` or `\r\n`. -/
theorem strip_terminator_amended (e : Nat) (source : List Nat)
    (he : e = 10 ∨ e = 0) :
    (∀ t ∈ readerLines e source, e ∉ t) ∧
    (e = 10 → ∀ t ∈ readerLines e source, ¬([13, 10].isSuffixOf t = true)) := by
  refine ⟨readerLines_not_mem e he source, ?_⟩
  intro h10 t ht hsuf
  subst h10
  have h10mem : (10 : Nat) ∈ t :=
    (List.isSuffixOf_iff_suffix.1 hsuf).mem (by simp)
  exact (readerLines_not_mem 10 (Or.inl rfl) source t ht) h10mem

/-- C8 amended witness: concrete run in default `\n` mode on
`"a\r\nb\n"`. -/
theorem strip_terminator_amended_witness :
    ((10 : Nat) = 10 ∨ (10 : Nat) = 0) ∧
    ((∀ t ∈ readerLines 10 [97, 13, 10, 98, 10], (10 : Nat) ∉ t) ∧
     ((10 : Nat) = 10 →
        ∀ t ∈ readerLines 10 [97, 13, 10, 98, 10], ¬([13, 10].isSuffixOf t = true))) :=
  ⟨Or.inl rfl, strip_terminator_amended 10 [97, 13, 10, 98, 10] (Or.inl rfl)⟩

theorem restart_matcher_preserves (m : Model) :
    m.restart_matcher.selection = m.selection ∧
    m.restart_matcher.num_options = m.num_options ∧
    m.restart_matcher.clear_selection = m.clear_selection ∧
    m.restart_matcher.query = m.query ∧
    m.restart_matcher.cmd = m.cmd ∧
    m.restart_matcher.next_idx_to_append = m.next_idx_to_append := by
  obtain ⟨q, c, cs, sel, no, pool, rc, mc, idx, tr⟩ := m
  cases mc <;> cases rc <;>
    simp [Model.restart_matcher, Model.reader_done] <;>
    split_ifs <;> simp

theorem restart_matcher_matcher_control (m : Model) :
    m.restart_matcher.matcher_control = some (Matcher.run m.query) := by
  obtain ⟨q, c, cs, sel, no, pool, rc, mc, idx, tr⟩ := m
  cases mc <;> cases rc <;>
    simp [Model.restart_matcher, Model.reader_done] <;>
    split_ifs <;> simp

theorem hb_drain_preserves (m : Model) :
    m.hb_drain.item_pool = m.item_pool ∧
    m.hb_drain.reader_control = m.reader_control ∧
    m.hb_drain.query = m.query ∧
    m.hb_drain.cmd = m.cmd ∧
    m.hb_drain.next_idx_to_append = m.next_idx_to_append ∧
    m.hb_drain.trace = m.trace := by
  obtain ⟨q, c, cs, sel, no, pool, rc, mc, idx, tr⟩ := m
  cases mc with
  | none => simp [Model.hb_drain]
  | some c0 =>
    simp only [Model.hb_drain]
    split_ifs <;> simp

theorem hb_tick_preserves (m : Model) :
    m.hb_tick.selection = m.selection ∧
    m.hb_tick.num_options = m.num_options ∧
    m.hb_tick.clear_selection = m.clear_selection ∧
    m.hb_tick.query = m.query ∧
    m.hb_tick.cmd = m.cmd ∧
    m.hb_tick.next_idx_to_append = m.next_idx_to_append := by
  obtain ⟨hs, hn, hc, hq, hcmd, hi⟩ := restart_matcher_preserves m
  simp only [Model.hb_tick]
  split_ifs <;> simp [hs, hn, hc, hq, hcmd, hi]

/-- C1: at a heartbeat tick whose matcher has stopped, the pending clear
strategy is applied to the selection before that tick's append of the drained
matches: under `Clear` the selection is always cleared, under
`ClearIfNotNull` exactly when the reader has fully stopped or the drained
match set is non-empty, and under `DontClear` never. -/
theorem heart_beat_clear_strategy (m : Model) (ctrl : MatcherControl)
    (hm : m.matcher_control = some ctrl) (hs : ctrl.stopped = true) :
    (m.clear_selection = ClearStrategy.Clear →
       m.act_heart_beat.selection
         = Selection.append_sorted_items m.selection.clear ctrl.matched) ∧
    (m.clear_selection = ClearStrategy.ClearIfNotNull →
       m.act_heart_beat.selection
         = Selection.append_sorted_items
             (if (m.reader_done || !ctrl.matched.isEmpty) = true then m.selection.clear
              else m.selection) ctrl.matched) ∧
    (m.clear_selection = ClearStrategy.DontClear →
       m.act_heart_beat.selection
         = Selection.append_sorted_items m.selection ctrl.matched) := by
  have hsel : m.act_heart_beat.selection = m.hb_drain.selection :=
    (hb_tick_preserves m.hb_drain).1
  refine ⟨?_, ?_, ?_⟩ <;> intro hcs <;> rw [hsel] <;>
    simp [Model.hb_drain, hm, hs, hbCleared, hcs]

/-- A stopped matcher handle holding one drained match, for witnesses. -/
def mcStopped : MatcherControl :=
  { stopped := true
    matched := [{ item := { text := "banana", id := (1, 0) }, rank := 3 }]
    query := "an" }

/-- A model at a tick where the matcher has stopped, for witnesses. -/
def testModelStopped : Model :=
  { testModel with
    matcher_control := some mcStopped,
    clear_selection := ClearStrategy.ClearIfNotNull }

/-- C1 witness: concrete drained tick under `ClearIfNotNull`. -/
theorem heart_beat_clear_strategy_witness :
    testModelStopped.matcher_control = some mcStopped ∧
    mcStopped.stopped = true ∧
    ((testModelStopped.clear_selection = ClearStrategy.Clear →
        testModelStopped.act_heart_beat.selection
          = Selection.append_sorted_items testModelStopped.selection.clear mcStopped.matched) ∧
     (testModelStopped.clear_selection = ClearStrategy.ClearIfNotNull →
        testModelStopped.act_heart_beat.selection
          = Selection.append_sorted_items
              (if (testModelStopped.reader_done || !mcStopped.matched.isEmpty) = true
               then testModelStopped.selection.clear
               else testModelStopped.selection) mcStopped.matched) ∧
     (testModelStopped.clear_selection = ClearStrategy.DontClear →
        testModelStopped.act_heart_beat.selection
          = Selection.append_sorted_items testModelStopped.selection mcStopped.matched)) :=
  ⟨rfl, rfl, heart_beat_clear_strategy testModelStopped mcStopped rfl rfl⟩

/-- C2: when the running command changes, the event loop kills both the
reader and the matcher, sets `ClearIfNotNull`, clears the item pool, starts a
new reader on the new command and restarts the matcher — afterwards the pool
is empty and the new reader's output buffer is empty, so the pool was emptied
before any item of the new command can appear. -/
theorem cmd_query_change_spec (m : Model) (rc : ReaderControl) (mc : MatcherControl)
    (h1 : m.reader_control = some rc) (h2 : m.matcher_control = some mc) :
    m.on_cmd_query_change.trace
      = m.trace ++ [Effect.killReader, Effect.killMatcher, Effect.startReader m.cmd,
                    Effect.sendHeartBeat, Effect.startMatcher m.query] ∧
    m.on_cmd_query_change.clear_selection = ClearStrategy.ClearIfNotNull ∧
    m.on_cmd_query_change.item_pool = { items := [], taken := 0 } ∧
    m.on_cmd_query_change.num_options = 0 ∧
    m.on_cmd_query_change.reader_control = some (Reader.run m.cmd) ∧
    (Reader.run m.cmd).items = [] ∧
    m.on_cmd_query_change.matcher_control = some (Matcher.run m.query) := by
  obtain ⟨q, c, cs, sel, no, pool, rc0, mc0, idx, tr⟩ := m
  simp only at h1 h2
  subst h1
  subst h2
  simp [Model.on_cmd_query_change, Model.restart_matcher, Model.reader_done,
        ReaderControl.is_done, ReaderControl.take, Reader.run, Matcher.run,
        ItemPool.clear, ItemPool.append]

/-- C2 witness: concrete command change from `testModel`. -/
theorem cmd_query_change_spec_witness :
    testModel.reader_control = some { stopped := false, items := [], cmd := "find ." } ∧
    testModel.matcher_control = some { stopped := false, matched := [], query := "" } ∧
    (testModel.on_cmd_query_change.trace
       = testModel.trace ++ [Effect.killReader, Effect.killMatcher,
                             Effect.startReader testModel.cmd, Effect.sendHeartBeat,
                             Effect.startMatcher testModel.query] ∧
     testModel.on_cmd_query_change.clear_selection = ClearStrategy.ClearIfNotNull ∧
     testModel.on_cmd_query_change.item_pool = { items := [], taken := 0 } ∧
     testModel.on_cmd_query_change.num_options = 0 ∧
     testModel.on_cmd_query_change.reader_control = some (Reader.run testModel.cmd) ∧
     (Reader.run testModel.cmd).items = [] ∧
     testModel.on_cmd_query_change.matcher_control = some (Matcher.run testModel.query)) :=
  ⟨rfl, rfl, cmd_query_change_spec testModel _ _ rfl rfl⟩

theorem act_heart_beat_of_none_processed (m : Model)
    (hm : m.matcher_control = none)
    (hp : (m.reader_done && (m.item_pool.num_not_taken == 0)) = true) :
    m.act_heart_beat = m := by
  unfold Model.act_heart_beat
  have hd : m.hb_drain = m := by simp [Model.hb_drain, hm]
  rw [hd]
  simp [Model.hb_tick, hp, hm]

theorem act_heart_beat_of_running (m : Model) (c : MatcherControl)
    (hm : m.matcher_control = some c) (hs : c.stopped = false) :
    m.act_heart_beat = { m with trace := m.trace ++ [Effect.scheduleHeartBeat] } := by
  unfold Model.act_heart_beat
  have hd : m.hb_drain = m := by simp [Model.hb_drain, hm, hs]
  rw [hd]
  simp [Model.hb_tick, hm]

theorem hb_tick_matcher (m : Model) :
    m.hb_tick.matcher_control = m.matcher_control ∨
    m.hb_tick.matcher_control = some (Matcher.run m.query) := by
  simp only [Model.hb_tick]
  split_ifs with h1 h2 h3
  · right
    simpa using restart_matcher_matcher_control m
  · right
    simpa using restart_matcher_matcher_control m
  · left; rfl
  · left; rfl

theorem hb_drain_matcher (m : Model) :
    (m.hb_drain = m ∧ ∀ c, m.matcher_control = some c → c.stopped = false) ∨
    m.hb_drain.matcher_control = none := by
  obtain ⟨q, c, cs, sel, no, pool, rc, mc, idx, tr⟩ := m
  cases mc with
  | none =>
    left
    refine ⟨by simp [Model.hb_drain], by simp⟩
  | some c0 =>
    by_cases hst : c0.stopped = true
    · right
      simp [Model.hb_drain, hst]
    · left
      refine ⟨by simp [Model.hb_drain, hst], ?_⟩
      intro c hc
      simp only [Option.some_inj] at hc
      subst hc
      simpa using hst

theorem hb_matcher_not_stopped (m : Model) (c : MatcherControl)
    (h : m.act_heart_beat.matcher_control = some c) : c.stopped = false := by
  unfold Model.act_heart_beat at h
  rcases hb_tick_matcher m.hb_drain with ht | ht
  · rw [ht] at h
    rcases hb_drain_matcher m with ⟨hd, hall⟩ | hd
    · exact hall c (by rw [← hd]; exact h)
    · rw [hd] at h
      cases h
  · rw [ht] at h
    simp only [Option.some_inj] at h
    rw [← h]
    rfl

theorem hb_tick_none (m1 : Model) (h : m1.hb_tick.matcher_control = none) :
    (m1.reader_done && (m1.item_pool.num_not_taken == 0)) = true ∧
    m1.hb_tick.reader_control = m1.reader_control ∧
    m1.hb_tick.item_pool = m1.item_pool := by
  have hfresh := restart_matcher_matcher_control m1
  by_cases h1 : (!(m1.reader_done && (m1.item_pool.num_not_taken == 0))
                  && m1.matcher_control.isNone) = true
  · exfalso
    have hsome : m1.hb_tick.matcher_control = some (Matcher.run m1.query) := by
      simp only [Model.hb_tick]
      rw [if_pos h1]
      split_ifs
      · simpa using hfresh
      · exact hfresh
    rw [hsome] at h
    cases h
  · have hmc : m1.hb_tick.matcher_control = m1.matcher_control := by
      simp only [Model.hb_tick]
      rw [if_neg h1]
      split_ifs <;> rfl
    have hnone : m1.matcher_control = none := by rw [← hmc]; exact h
    have hproc : (m1.reader_done && (m1.item_pool.num_not_taken == 0)) = true := by
      rcases Bool.eq_false_or_eq_true
          (m1.reader_done && (m1.item_pool.num_not_taken == 0)) with hb | hb
      · exact hb
      · exfalso
        apply h1
        rw [hb, hnone]
        rfl
    have hrc : m1.hb_tick.reader_control = m1.reader_control := by
      simp only [Model.hb_tick]
      rw [if_neg h1]
      split_ifs <;> rfl
    have hpool : m1.hb_tick.item_pool = m1.item_pool := by
      simp only [Model.hb_tick]
      rw [if_neg h1]
      split_ifs <;> rfl
    exact ⟨hproc, hrc, hpool⟩

theorem hb_matcher_none_processed (m : Model)
    (h : m.act_heart_beat.matcher_control = none) :
    (m.act_heart_beat.reader_done
       && (m.act_heart_beat.item_pool.num_not_taken == 0)) = true := by
  unfold Model.act_heart_beat at h ⊢
  obtain ⟨hp, hrc, hpool⟩ := hb_tick_none m.hb_drain h
  rw [show (m.hb_drain.hb_tick.reader_done = m.hb_drain.reader_done) from by
        unfold Model.reader_done; rw [hrc],
      hpool]
  exact hp

/-- C9: a second consecutive heartbeat with no intervening state change is a
no-op on the whole model state apart from the ghost effect trace: selection,
`num_options`, the item pool (items and cursor), the reader and matcher
handles, query, command, clear strategy and the append counter are all left
identical. -/
theorem heart_beat_idempotent (m : Model) :
    m.act_heart_beat.act_heart_beat.selection = m.act_heart_beat.selection ∧
    m.act_heart_beat.act_heart_beat.num_options = m.act_heart_beat.num_options ∧
    m.act_heart_beat.act_heart_beat.item_pool = m.act_heart_beat.item_pool ∧
    m.act_heart_beat.act_heart_beat.reader_control = m.act_heart_beat.reader_control ∧
    m.act_heart_beat.act_heart_beat.matcher_control = m.act_heart_beat.matcher_control ∧
    m.act_heart_beat.act_heart_beat.query = m.act_heart_beat.query ∧
    m.act_heart_beat.act_heart_beat.cmd = m.act_heart_beat.cmd ∧
    m.act_heart_beat.act_heart_beat.clear_selection = m.act_heart_beat.clear_selection ∧
    m.act_heart_beat.act_heart_beat.next_idx_to_append = m.act_heart_beat.next_idx_to_append := by
  cases h : m.act_heart_beat.matcher_control with
  | some c =>
    have hst : c.stopped = false := hb_matcher_not_stopped m c h
    rw [act_heart_beat_of_running m.act_heart_beat c h hst]
    simp [h]
  | none =>
    have hp := hb_matcher_none_processed m h
    rw [act_heart_beat_of_none_processed m.act_heart_beat h hp]
    simp [h]

end Skim
